import Mathlib

/-
  Formal model of the AGLoc indoor localization core
  (localization_using_area_graph).  The repository ships the orchestration
  header cloudHandler.hpp; component behaviour that the header only
  declares is modelled from the specification, as marked on each
  definition.  Geometry is embedded over exact rationals.
-/

/-- A 2D point (or vector) in the map plane with exact rational
coordinates. -/
structure Pt where
  x : ℚ
  y : ℚ
  deriving DecidableEq, Repr

/-- Componentwise difference of two points, as a vector. -/
def psub (u v : Pt) : Pt := ⟨u.x - v.x, u.y - v.y⟩

/-- The 2D cross product (signed area) of two vectors. -/
def cross (u v : Pt) : ℚ := u.x * v.y - u.y * v.x

/-- The dot product of two vectors. -/
def pdot (u v : Pt) : ℚ := u.x * v.x + u.y * v.y

/-- A sensing ray: origin plus bearing direction. -/
structure Ray where
  origin : Pt
  dir : Pt
  deriving DecidableEq, Repr

/-- An intersection record: the parameter (range) along the ray and the
intersection point. -/
structure Hit where
  range : ℚ
  point : Pt
  deriving DecidableEq, Repr

/-- Modelled from the spec: the ray against wall-segment test at the
heart of RayMapIntersector (invoked by checkWholeMap and checkMap, whose
bodies are not under src/).  The ray origin + t * dir with t ≥ 0 is
intersected with the closed segment from a to b by solving the standard
two-by-two linear system; a ray parallel to the segment reports no hit.
Returns the range parameter t and the intersection point. -/
def raySegmentIntersect (r : Ray) (a b : Pt) : Option Hit :=
  let e := psub b a
  let den := cross r.dir e
  if den = 0 then none
  else
    let t := cross (psub a r.origin) e / den
    let s := cross (psub a r.origin) r.dir / den
    if 0 ≤ t ∧ 0 ≤ s ∧ s ≤ 1 then
      some ⟨t, ⟨r.origin.x + t * r.dir.x, r.origin.y + t * r.dir.y⟩⟩
    else none

/-- A rigid transform of the plane: rotation (cosine c, sine s, with
c^2 + s^2 = 1) followed by a translation. -/
structure Rigid where
  c : ℚ
  s : ℚ
  tx : ℚ
  ty : ℚ
  unit : c ^ 2 + s ^ 2 = 1

/-- Apply a rigid transform to a point. -/
def rigidPt (T : Rigid) (p : Pt) : Pt :=
  ⟨T.c * p.x - T.s * p.y + T.tx, T.s * p.x + T.c * p.y + T.ty⟩

/-- Apply only the rotational part of a rigid transform to a vector. -/
def rigidVec (T : Rigid) (p : Pt) : Pt :=
  ⟨T.c * p.x - T.s * p.y, T.s * p.x + T.c * p.y⟩

/-- Apply a rigid transform to a ray: the origin moves rigidly, the
bearing direction rotates. -/
def rigidRay (T : Rigid) (r : Ray) : Ray :=
  ⟨rigidPt T r.origin, rigidVec T r.dir⟩

/-- Apply a rigid transform to an intersection record: the range is kept,
the intersection point moves rigidly. -/
def rigidHit (T : Rigid) (h : Hit) : Hit :=
  ⟨h.range, rigidPt T h.point⟩

/-- Squared Euclidean distance between two points. -/
def distSq (p q : Pt) : ℚ := (p.x - q.x) ^ 2 + (p.y - q.y) ^ 2

/-- The point a + t * (b - a) on the segment from a to b. -/
def segPoint (a b : Pt) (t : ℚ) : Pt :=
  ⟨a.x + t * (b.x - a.x), a.y + t * (b.y - a.y)⟩

/-- Parameter of the point of the segment from a to b closest to p,
clamped to the segment. -/
def segParam (p a b : Pt) : ℚ :=
  let e := psub b a
  let len2 := pdot e e
  if len2 = 0 then 0
  else
    let t := pdot (psub p a) e / len2
    if t < 0 then 0 else if 1 < t then 1 else t

/-- Squared distance from a point to the closed segment from a to b. -/
def distSqToSegment (p a b : Pt) : ℚ :=
  distSq p (segPoint a b (segParam p a b))

/-- The edge list of a polygon given as its ordered vertex list: each
vertex paired with its cyclic successor. -/
def polygonEdges (poly : List Pt) : List (Pt × Pt) :=
  poly.zip (poly.rotate 1)

/-- Whether the horizontal ray going right from p crosses the edge from a
to b, with the standard half-open tie-break rule (an edge counts on its
lower endpoint, not on its upper one), written without divisions. -/
def edgeCrossesRay (p a b : Pt) : Bool :=
  if a.y ≤ p.y ∧ p.y < b.y then
    if (p.x - a.x) * (b.y - a.y) < (p.y - a.y) * (b.x - a.x) then true else false
  else if b.y ≤ p.y ∧ p.y < a.y then
    if (p.y - a.y) * (b.x - a.x) < (p.x - a.x) * (b.y - a.y) then true else false
  else false

/-- Modelled from the spec: the point-in-polygon test shared by
GlobalLocalizer, PoseTracker and AreaTracker (the PolygonGeometry
capability of the design notes; gettingInsideWhichArea's body is not
under src/).  Even-odd rule: a point is inside when the rightward
horizontal ray from it crosses an odd number of boundary edges. -/
def pointInPolygon (poly : List Pt) (p : Pt) : Bool :=
  ((polygonEdges poly).filter (fun e => edgeCrossesRay p e.1 e.2)).length % 2 == 1

/-- A passage edge of an area: its two endpoints and the identifier of
the neighboring area reachable through it. -/
structure Passage where
  ea : Pt
  eb : Pt
  neighborId : Nat
  deriving DecidableEq, Repr

/-- An area of the Area Graph: identifier, boundary polygon, and passage
edges to adjacent areas. -/
structure Area where
  id : Nat
  poly : List Pt
  passages : List Passage
  deriving DecidableEq, Repr

/-- Look an area up by identifier in the map's area list. -/
def lookupArea (areas : List Area) (i : Nat) : Option Area :=
  areas.find? (fun ar => ar.id == i)

/-- The areas adjacent to the current area through its passages, each
paired with the squared distance from the pose to its passage edge. -/
def adjacentAreas (areas : List Area) (cur : Area) (pose : Pt) :
    List (ℚ × Area) :=
  cur.passages.filterMap (fun ps =>
    (lookupArea areas ps.neighborId).map
      (fun ar => (distSqToSegment pose ps.ea ps.eb, ar)))

/-- Ordering of distance-keyed adjacent areas: nearest passage first. -/
def adjLe (u v : ℚ × Area) : Prop := u.1 ≤ v.1

instance : DecidableRel adjLe :=
  fun u v => inferInstanceAs (Decidable (u.1 ≤ v.1))

/-- The adjacent areas sorted so that the one whose passage edge is
nearest the pose comes first. -/
def orderedAdjacent (areas : List Area) (cur : Area) (pose : Pt) :
    List (ℚ × Area) :=
  List.insertionSort adjLe (adjacentAreas areas cur pose)

/-- Outcome of one AreaTracker update. -/
inductive AreaUpdate where
  | stay : AreaUpdate
  | transition (newId : Nat) : AreaUpdate
  | inconsistent : AreaUpdate
  deriving DecidableEq, Repr

/-- Modelled from the spec: AreaTracker's update (the body of
CloudHandler::gettingInsideWhichArea is not under src/).  Confirm the
refined pose still lies within the current area's polygon; otherwise walk
the adjacency graph through the passage edge nearest the pose and report
a transition to the first adjacent area containing the pose; when no
adjacent area contains the pose, signal an inconsistency. -/
def gettingInsideWhichArea (areas : List Area) (cur : Area) (pose : Pt) :
    AreaUpdate :=
  if pointInPolygon cur.poly pose = true then AreaUpdate.stay
  else
    match (orderedAdjacent areas cur pose).find?
        (fun pr => pointInPolygon pr.2.poly pose) with
    | some pr => AreaUpdate.transition pr.2.id
    | none => AreaUpdate.inconsistent

/-- A 2D pose: position and heading. -/
structure PoseSE2 where
  x : ℚ
  y : ℚ
  th : ℚ
  deriving DecidableEq, Repr

/-- An incremental rigid transform produced by one ICP iteration. -/
structure IcpDelta where
  dx : ℚ
  dy : ℚ
  dth : ℚ
  deriving DecidableEq, Repr

/-- Squared magnitude of an incremental transform. -/
def deltaMagSq (d : IcpDelta) : ℚ := d.dx ^ 2 + d.dy ^ 2 + d.dth ^ 2

/-- Compose an incremental transform onto a pose estimate. -/
def composeDelta (p : PoseSE2) (d : IcpDelta) : PoseSE2 :=
  ⟨p.x + d.dx, p.y + d.dy, p.th + d.dth⟩

/-- Result of PoseTracker's refinement: the pose, the convergence flag,
and the number of iterations actually performed. -/
structure IcpResult where
  pose : PoseSE2
  converged : Bool
  iters : Nat
  deriving DecidableEq, Repr

/-- Modelled from the spec: PoseTracker's iterative refinement loop (the
body of CloudHandler::optimizationICP is not under src/).  The step
argument stands for one iteration's correspondence building, outlier
rejection and weighted least-squares solve applied to the scan, the area
and the current pose estimate; the loop composes increments until the
increment's squared magnitude falls below the threshold or the iteration
budget is exhausted, in which case the last pose is returned with
converged = false. -/
def optimizationICP (step : PoseSE2 → IcpDelta) (threshSq : ℚ) :
    Nat → PoseSE2 → IcpResult
  | 0, p => ⟨p, false, 0⟩
  | n + 1, p =>
    let d := step p
    if deltaMagSq d < threshSq then ⟨p, true, 0⟩
    else
      let r := optimizationICP step threshSq n (composeDelta p d)
      ⟨r.pose, r.converged, r.iters + 1⟩

/-- Plain iteration of the ICP step with no convergence check, used to
state what pose the budget-exhausted case returns. -/
def icpIterate (step : PoseSE2 → IcpDelta) : Nat → PoseSE2 → PoseSE2
  | 0, p => p
  | n + 1, p => icpIterate step n (composeDelta p (step p))

/-- A candidate pose scored by GlobalLocalizer. -/
structure Candidate where
  pose : PoseSE2
  areaId : Nat
  fitness : ℚ
  deriving DecidableEq, Repr

/-- The top-scoring candidate of a list, by fitness. -/
def pickBest : List Candidate → Option Candidate
  | [] => none
  | c :: cs =>
    match pickBest cs with
    | none => some c
    | some b => if b.fitness < c.fitness then some c else some b

/-- Modelled from the spec: GlobalLocalizer's candidate search outcome
(the body of the CloudInitializer member used by cloudHandler is not
under src/).  Candidates are ranked by fitness; the top-scoring one is
returned, except that when no candidate achieves the minimum fitness the
result is invalid (none). -/
def localize (cands : List Candidate) (minFitness : ℚ) : Option Candidate :=
  match pickBest cands with
  | none => none
  | some c => if minFitness ≤ c.fitness then some c else none

/-- The process-wide Localization State: current pose, current area and
the initialized flag. -/
structure LocalizationState where
  pose : PoseSE2
  areaId : Nat
  initialized : Bool
  deriving DecidableEq, Repr

/-- Modelled from the spec: how the pipeline driver folds a global
localization result into the Localization State.  An invalid result
leaves the state untouched; a valid one installs the pose and area and
sets initialized. -/
def applyGlobalResult (st : LocalizationState) (r : Option Candidate) :
    LocalizationState :=
  match r with
  | none => st
  | some c => ⟨c.pose, c.areaId, true⟩

/-- One organized-scan point: 3D coordinates, intensity, ring index and
horizontal angular index. -/
structure ScanPoint where
  px : ℚ
  py : ℚ
  pz : ℚ
  intensity : ℚ
  ring : Nat
  horizIdx : Nat
  deriving DecidableEq, Repr

/-- Squared range of a scan point from the sensor. -/
def rangeSq (q : ScanPoint) : ℚ := q.px ^ 2 + q.py ^ 2 + q.pz ^ 2

/-- The preprocessed representation of one sweep, with its validity
flag. -/
structure ProcessedScan where
  points : List ScanPoint
  valid : Bool
  deriving DecidableEq, Repr

/-- Modelled from the spec: ScanPreprocessor's clutter removal (the body
behind cloudHandlerCB is not under src/).  A point is kept when its range
is at least the sensor-blanking distance and it passes the local density
check, which the densityOk argument stands for; a scan whose every point
is removed, in particular an empty scan, is flagged invalid. -/
def processScan (blankSq : ℚ) (densityOk : ScanPoint → Bool)
    (raw : List ScanPoint) : ProcessedScan :=
  let kept := raw.filter
    (fun q => (if blankSq ≤ rangeSq q then true else false) && densityOk q)
  ⟨kept, !kept.isEmpty⟩

/-- Modelled from the spec: the pipeline driver's treatment of one frame
(cloudHandlerCB's body is not under src/).  An invalid ProcessedScan
skips the frame and keeps the previous Localization State; the advance
argument stands for the rest of the pipeline on a valid scan. -/
def handleFrame (advance : LocalizationState → ProcessedScan → LocalizationState)
    (st : LocalizationState) (ps : ProcessedScan) : LocalizationState :=
  if ps.valid = true then advance st ps else st

/-- One correspondence between a scan point and a wall segment under a
candidate pose. -/
structure Correspondence where
  pointIdx : Nat
  edge : Pt × Pt
  residual : ℚ
  weight : ℚ
  deriving DecidableEq, Repr

/-- Modelled from the spec: the outlier-rejection step of PoseTracker's
iteration (the body of CloudHandler::filterUsefulPoints is not under
src/).  Correspondences whose residual magnitude exceeds the outlier
threshold are discarded. -/
def filterUsefulPoints (outlierThresh : ℚ) (cs : List Correspondence) :
    List Correspondence :=
  cs.filter (fun c => if |c.residual| ≤ outlierThresh then true else false)

/-- The events that matter to the external initial-guess protocol: a
guess message arriving, and a confidence collapse returning the system to
the uninitialized state. -/
inductive GuessEvent where
  | guess : GuessEvent
  | collapse : GuessEvent
  deriving DecidableEq, Repr

/-- Modelled from the spec: the initial-guess callback
(CloudHandler::getInitialExtGuess's body is not under src/).  Given the
getGuessOnce flag, it returns the new flag and whether this message is
consumed: a guess is consumed only when no guess has been consumed since
the last cold start, and consuming it sets the flag. -/
def getInitialExtGuess (getGuessOnce : Bool) : Bool × Bool :=
  if getGuessOnce = true then (true, false) else (true, true)

/-- Modelled from the spec: one step of the guess-acceptance state
machine.  A guess message goes through the callback; a confidence
collapse resets the flag so that one new guess may again be accepted. -/
def guessStep (flag : Bool) (e : GuessEvent) : Bool × Bool :=
  match e with
  | GuessEvent.guess => getInitialExtGuess flag
  | GuessEvent.collapse => (false, false)

/-- How many guess messages of an event trace are consumed, starting from
a given getGuessOnce flag. -/
def guessAcceptCount (flag : Bool) : List GuessEvent → Nat
  | [] => 0
  | e :: es =>
    let r := guessStep flag e
    (if r.2 = true then 1 else 0) + guessAcceptCount r.1 es

/-- The CloudHandler member variables set by initializeVariables. -/
structure CloudHandlerVars where
  insideAreaStartIndex : Int
  insideAreaID : Int
  numofFrame : Int
  getGuessOnce : Bool
  globalImgTimes : Int
  deriving DecidableEq, Repr

/-- CloudHandler::initializeVariables as written in cloudHandler.hpp:
every counter and index is zeroed and getGuessOnce is cleared.  The
wall-clock member sumFrameRunTime is outside the embedding. -/
def initializeVariables (_h : CloudHandlerVars) : CloudHandlerVars :=
  ⟨0, 0, 0, false, 0⟩

/-- A concrete left room of a two-room demonstration map, used by closed
instances of the theorems below. -/
def areaLeft : Area :=
  ⟨0, [⟨0, 0⟩, ⟨2, 0⟩, ⟨2, 2⟩, ⟨0, 2⟩], [⟨⟨2, 0⟩, ⟨2, 2⟩, 1⟩]⟩

/-- The right room of the demonstration map, adjacent to the left room
through the shared passage edge. -/
def areaRight : Area :=
  ⟨1, [⟨2, 0⟩, ⟨4, 0⟩, ⟨4, 2⟩, ⟨2, 2⟩], [⟨⟨2, 0⟩, ⟨2, 2⟩, 0⟩]⟩

theorem cross_rigidVec (T : Rigid) (u v : Pt) :
    cross (rigidVec T u) (rigidVec T v) = cross u v := by
  simp only [cross, rigidVec]
  linear_combination (u.x * v.y - u.y * v.x) * T.unit

theorem psub_rigidPt (T : Rigid) (a b : Pt) :
    psub (rigidPt T a) (rigidPt T b) = rigidVec T (psub a b) := by
  simp only [psub, rigidPt, rigidVec, Pt.mk.injEq]
  constructor <;> ring

theorem icp_iters_le (step : PoseSE2 → IcpDelta) (t : ℚ) :
    ∀ (n : Nat) (p : PoseSE2), (optimizationICP step t n p).iters ≤ n := by
  intro n
  induction n with
  | zero => intro p; simp [optimizationICP]
  | succ m ih =>
    intro p
    simp only [optimizationICP]
    by_cases hc : deltaMagSq (step p) < t
    · simp [hc]
    · simpa [hc] using ih (composeDelta p (step p))

theorem icp_converged_small (step : PoseSE2 → IcpDelta) (t : ℚ) :
    ∀ (n : Nat) (p : PoseSE2),
      (optimizationICP step t n p).converged = true →
      deltaMagSq (step (optimizationICP step t n p).pose) < t := by
  intro n
  induction n with
  | zero => intro p h; simp [optimizationICP] at h
  | succ m ih =>
    intro p
    simp only [optimizationICP]
    by_cases hc : deltaMagSq (step p) < t
    · simp [hc]
    · simpa [hc] using ih (composeDelta p (step p))

theorem icp_exhausted (step : PoseSE2 → IcpDelta) (t : ℚ) :
    ∀ (n : Nat) (p : PoseSE2),
      (optimizationICP step t n p).converged = false →
      (optimizationICP step t n p).iters = n ∧
      (optimizationICP step t n p).pose = icpIterate step n p := by
  intro n
  induction n with
  | zero => intro p _; simp [optimizationICP, icpIterate]
  | succ m ih =>
    intro p
    simp only [optimizationICP]
    by_cases hc : deltaMagSq (step p) < t
    · simp [hc]
    · intro h
      simp only [hc, if_false, icpIterate]
      have h2 : (optimizationICP step t m (composeDelta p (step p))).converged = false := by
        simpa [hc] using h
      exact ⟨by simp [(ih _ h2).1], (ih _ h2).2⟩

/-- Claim C2: for every step function, threshold, prior pose and area,
optimizationICP terminates within its iteration budget: it stops as soon
as the incremental transform's squared magnitude falls below the
threshold, and when the budget is exhausted it still returns the pose
reached so far, with converged = false. -/
theorem optimizationICP_terminates (step : PoseSE2 → IcpDelta) (threshSq : ℚ)
    (budget : Nat) (p : PoseSE2) :
    (optimizationICP step threshSq budget p).iters ≤ budget ∧
    ((optimizationICP step threshSq budget p).converged = true →
      deltaMagSq (step (optimizationICP step threshSq budget p).pose) < threshSq) ∧
    ((optimizationICP step threshSq budget p).converged = false →
      (optimizationICP step threshSq budget p).iters = budget ∧
      (optimizationICP step threshSq budget p).pose = icpIterate step budget p) :=
  ⟨icp_iters_le step threshSq budget p,
   icp_converged_small step threshSq budget p,
   icp_exhausted step threshSq budget p⟩

theorem optimizationICP_terminates_witness :
    (optimizationICP (fun _ => ⟨1, 0, 0⟩) 1 2 ⟨0, 0, 0⟩).iters = 2 :=
  ((optimizationICP_terminates (fun _ => ⟨1, 0, 0⟩) 1 2 ⟨0, 0, 0⟩).2.2
    (by norm_num [optimizationICP, deltaMagSq, composeDelta])).1

/-- Claim C7: PoseTracker's refinement is idempotent at its fixed point:
when optimizationICP returns converged = true, the returned pose's next
incremental transform has squared magnitude below the threshold, so
running the loop again from that pose with any positive budget returns
the very same pose immediately, converged, with zero iterations. -/
theorem optimizationICP_idempotent (step : PoseSE2 → IcpDelta) (threshSq : ℚ)
    (budget : Nat) (p : PoseSE2)
    (h : (optimizationICP step threshSq budget p).converged = true)
    (budget2 : Nat) :
    deltaMagSq (step (optimizationICP step threshSq budget p).pose) < threshSq ∧
    optimizationICP step threshSq (budget2 + 1)
        (optimizationICP step threshSq budget p).pose
      = ⟨(optimizationICP step threshSq budget p).pose, true, 0⟩ := by
  have hs := icp_converged_small step threshSq budget p h
  exact ⟨hs, by simp [optimizationICP, hs]⟩

theorem optimizationICP_idempotent_witness :
    optimizationICP (fun _ => ⟨0, 0, 0⟩) 1 1
        (optimizationICP (fun _ => ⟨0, 0, 0⟩) 1 3 ⟨5, 5, 0⟩).pose
      = ⟨(optimizationICP (fun _ => ⟨0, 0, 0⟩) 1 3 ⟨5, 5, 0⟩).pose, true, 0⟩ :=
  (optimizationICP_idempotent (fun _ => ⟨0, 0, 0⟩) 1 3 ⟨5, 5, 0⟩
    (by norm_num [optimizationICP, deltaMagSq, composeDelta]) 0).2

/-- Claim C10: after CloudHandler::initializeVariables runs, the handler
is in a definite cold-start state: insideAreaStartIndex, insideAreaID,
numofFrame and globalImgTimes are zero and getGuessOnce is false, so no
area is selected and no external guess counts as consumed. -/
theorem initializeVariables_cold_start (h : CloudHandlerVars) :
    (initializeVariables h).insideAreaStartIndex = 0 ∧
    (initializeVariables h).insideAreaID = 0 ∧
    (initializeVariables h).numofFrame = 0 ∧
    (initializeVariables h).globalImgTimes = 0 ∧
    (initializeVariables h).getGuessOnce = false :=
  ⟨rfl, rfl, rfl, rfl, rfl⟩

/-- Claim C8: outlier rejection never adds correspondences: the filtered
CorrespondenceSet is no longer than the input, and every surviving
correspondence was present before. -/
theorem filterUsefulPoints_monotone (outlierThresh : ℚ)
    (cs : List Correspondence) :
    (filterUsefulPoints outlierThresh cs).length ≤ cs.length ∧
    ∀ c ∈ filterUsefulPoints outlierThresh cs, c ∈ cs :=
  ⟨List.length_filter_le _ cs, fun _ hc => List.mem_of_mem_filter hc⟩

theorem filterUsefulPoints_monotone_witness :
    (⟨0, (⟨0, 0⟩, ⟨1, 0⟩), 1/2, 1⟩ : Correspondence) ∈
      [(⟨0, (⟨0, 0⟩, ⟨1, 0⟩), 1/2, 1⟩ : Correspondence)] :=
  (filterUsefulPoints_monotone 1 [⟨0, (⟨0, 0⟩, ⟨1, 0⟩), 1/2, 1⟩]).2
    ⟨0, (⟨0, 0⟩, ⟨1, 0⟩), 1/2, 1⟩
    (by norm_num [filterUsefulPoints, List.filter, abs_le])

theorem pickBest_mem : ∀ (cands : List Candidate) (c : Candidate),
    pickBest cands = some c → c ∈ cands := by
  intro cands
  induction cands with
  | nil => intro c h; simp [pickBest] at h
  | cons a cs ih =>
    intro c h
    simp only [pickBest] at h
    split at h
    · simp at h; simp [h]
    · rename_i b hb
      split at h
      · simp at h; simp [h]
      · simp at h
        exact List.mem_cons_of_mem a (ih c (h ▸ hb))

/-- Claim C3: when no candidate reaches the minimum fitness,
GlobalLocalizer's search returns an invalid result, folding that result
into the Localization State changes nothing, and in particular the
initialized flag never becomes true from a failed global search. -/
theorem localize_failure_keeps_uninitialized (cands : List Candidate)
    (minFitness : ℚ) (st : LocalizationState)
    (h : ∀ c ∈ cands, c.fitness < minFitness) :
    localize cands minFitness = none ∧
    applyGlobalResult st (localize cands minFitness) = st ∧
    (st.initialized = false →
      (applyGlobalResult st (localize cands minFitness)).initialized = false) := by
  have hn : localize cands minFitness = none := by
    unfold localize
    cases hb : pickBest cands with
    | none => rfl
    | some c =>
      have hc : c.fitness < minFitness := h c (pickBest_mem cands c hb)
      show (if minFitness ≤ c.fitness then some c else none) = none
      rw [if_neg (not_le.mpr hc)]
  refine ⟨hn, ?_, ?_⟩
  · rw [hn]; rfl
  · intro hi; rw [hn]; exact hi

theorem localize_failure_keeps_uninitialized_witness :
    applyGlobalResult ⟨⟨0, 0, 0⟩, 0, false⟩
        (localize [⟨⟨0, 0, 0⟩, 0, 1/2⟩] 1) = ⟨⟨0, 0, 0⟩, 0, false⟩ :=
  (localize_failure_keeps_uninitialized [⟨⟨0, 0, 0⟩, 0, 1/2⟩] 1
    ⟨⟨0, 0, 0⟩, 0, false⟩
    (by intro c hc; rw [List.mem_singleton] at hc; subst hc; norm_num)).2.1

/-- Claim C4: an empty raw scan, or one whose every point is removed as
clutter, yields a ProcessedScan flagged invalid, and the pipeline then
skips the frame, leaving the whole Localization State unchanged. -/
theorem processScan_invalid_skips_frame (blankSq : ℚ)
    (densityOk : ScanPoint → Bool) (raw : List ScanPoint)
    (advance : LocalizationState → ProcessedScan → LocalizationState)
    (st : LocalizationState)
    (h : raw = [] ∨ (processScan blankSq densityOk raw).points = []) :
    (processScan blankSq densityOk raw).valid = false ∧
    handleFrame advance st (processScan blankSq densityOk raw) = st := by
  have hp : (processScan blankSq densityOk raw).points = [] := by
    rcases h with h | h
    · simp [processScan, h]
    · exact h
  have hv : (processScan blankSq densityOk raw).valid = false := by
    unfold processScan at hp ⊢
    simp only at hp ⊢
    rw [hp]
    rfl
  exact ⟨hv, by unfold handleFrame; rw [hv]; simp⟩

theorem processScan_invalid_skips_frame_witness :
    handleFrame (fun _ _ => ⟨⟨9, 9, 9⟩, 7, true⟩) ⟨⟨1, 2, 0⟩, 3, true⟩
        (processScan 1 (fun _ => true) [⟨0, 0, 0, 0, 0, 0⟩])
      = ⟨⟨1, 2, 0⟩, 3, true⟩ :=
  (processScan_invalid_skips_frame 1 (fun _ => true) [⟨0, 0, 0, 0, 0, 0⟩]
    (fun _ _ => ⟨⟨9, 9, 9⟩, 7, true⟩) ⟨⟨1, 2, 0⟩, 3, true⟩
    (Or.inr (by norm_num [processScan, List.filter, rangeSq]))).2

theorem guessAcceptCount_true (es : List GuessEvent)
    (h : GuessEvent.collapse ∉ es) : guessAcceptCount true es = 0 := by
  induction es with
  | nil => rfl
  | cons e es ih =>
    cases e with
    | guess =>
      have h2 : GuessEvent.collapse ∉ es := fun hm => h (List.mem_cons_of_mem _ hm)
      simp [guessAcceptCount, guessStep, getInitialExtGuess, ih h2]
    | collapse => exact absurd (List.mem_cons_self _ _) h

theorem guessAcceptCount_false (es : List GuessEvent)
    (h : GuessEvent.collapse ∉ es) : guessAcceptCount false es ≤ 1 := by
  cases es with
  | nil => simp [guessAcceptCount]
  | cons e es =>
    cases e with
    | guess =>
      have h2 : GuessEvent.collapse ∉ es := fun hm => h (List.mem_cons_of_mem _ hm)
      simp [guessAcceptCount, guessStep, getInitialExtGuess,
        guessAcceptCount_true es h2]
    | collapse => exact absurd (List.mem_cons_self _ _) h

/-- Claim C9: an external initial guess is accepted at most once per cold
start: along any event trace with no confidence collapse, at most one
guess message is consumed (none at all if one was already consumed); a
collapse clears the getGuessOnce flag; and from the cleared flag a new
guess message is again consumed. -/
theorem guess_accepted_once_per_cold_start (flag : Bool)
    (es : List GuessEvent) (h : GuessEvent.collapse ∉ es) :
    guessAcceptCount flag es ≤ (if flag = true then 0 else 1) ∧
    guessStep flag GuessEvent.collapse = (false, false) ∧
    (guessStep false GuessEvent.guess).2 = true := by
  refine ⟨?_, rfl, rfl⟩
  cases flag with
  | true => simp [guessAcceptCount_true es h]
  | false => simpa using guessAcceptCount_false es h

theorem guess_accepted_once_per_cold_start_witness :
    guessAcceptCount false [GuessEvent.guess, GuessEvent.guess] ≤
      (if false = true then 0 else 1) :=
  (guess_accepted_once_per_cold_start false [GuessEvent.guess, GuessEvent.guess]
    (by decide)).1

/-- Claim C5: AreaTracker's update either confirms the pose is inside the
current area's polygon, or reports a transition whose target is an
adjacent area that does contain the pose, or signals an inconsistency,
and it signals the inconsistency exactly when no adjacent area contains
the pose: it never silently picks an area that fails the containment
test. -/
theorem gettingInsideWhichArea_cases (areas : List Area) (cur : Area)
    (pose : Pt) :
    (gettingInsideWhichArea areas cur pose = AreaUpdate.stay →
      pointInPolygon cur.poly pose = true) ∧
    (∀ nid : Nat,
      gettingInsideWhichArea areas cur pose = AreaUpdate.transition nid →
      pointInPolygon cur.poly pose = false ∧
      ∃ pr ∈ adjacentAreas areas cur pose,
        pr.2.id = nid ∧ pointInPolygon pr.2.poly pose = true) ∧
    (gettingInsideWhichArea areas cur pose = AreaUpdate.inconsistent →
      pointInPolygon cur.poly pose = false ∧
      ∀ pr ∈ adjacentAreas areas cur pose,
        pointInPolygon pr.2.poly pose = false) := by
  unfold gettingInsideWhichArea
  by_cases hin : pointInPolygon cur.poly pose = true
  · rw [if_pos hin]
    refine ⟨fun _ => hin, fun nid h => absurd h (by simp), fun h => absurd h (by simp)⟩
  · rw [if_neg hin]
    have hinF : pointInPolygon cur.poly pose = false := by
      cases hb : pointInPolygon cur.poly pose
      · rfl
      · exact absurd hb hin
    have hperm := List.perm_insertionSort adjLe (adjacentAreas areas cur pose)
    cases hfind : (orderedAdjacent areas cur pose).find?
        (fun pr => pointInPolygon pr.2.poly pose) with
    | some pr =>
      have hmem : pr ∈ orderedAdjacent areas cur pose :=
        List.mem_of_find?_eq_some hfind
      have hmem2 : pr ∈ adjacentAreas areas cur pose := by
        unfold orderedAdjacent at hmem
        exact hperm.mem_iff.mp hmem
      have hp : pointInPolygon pr.2.poly pose = true := by
        simpa using List.find?_some hfind
      refine ⟨fun h => absurd h (by simp), fun nid h => ?_,
        fun h => absurd h (by simp)⟩
      have hid : pr.2.id = nid := by injection h
      exact ⟨hinF, ⟨pr, hmem2, hid, hp⟩⟩
    | none =>
      refine ⟨fun h => absurd h (by simp), fun nid h => absurd h (by simp),
        fun _ => ⟨hinF, ?_⟩⟩
      intro pr hpr
      have hmem : pr ∈ orderedAdjacent areas cur pose := by
        unfold orderedAdjacent
        exact hperm.mem_iff.mpr hpr
      have hnot := List.find?_eq_none.mp hfind pr hmem
      cases hb : pointInPolygon pr.2.poly pose
      · rfl
      · exact absurd hb hnot

theorem gettingInsideWhichArea_cases_witness :
    pointInPolygon areaLeft.poly ⟨3, 1⟩ = false ∧
    ∃ pr ∈ adjacentAreas [areaLeft, areaRight] areaLeft ⟨3, 1⟩,
      pr.2.id = 1 ∧ pointInPolygon pr.2.poly ⟨3, 1⟩ = true :=
  (gettingInsideWhichArea_cases [areaLeft, areaRight] areaLeft ⟨3, 1⟩).2.1 1
    (by norm_num [gettingInsideWhichArea, pointInPolygon, polygonEdges,
      edgeCrossesRay, orderedAdjacent, adjacentAreas, lookupArea,
      distSqToSegment, distSq, segPoint, segParam, psub, pdot,
      List.insertionSort, List.orderedInsert, List.rotate, List.filter,
      List.find?, List.filterMap, adjLe, areaLeft, areaRight])

theorem raySegmentIntersect_swap (r : Ray) (a b : Pt) :
    raySegmentIntersect r a b = raySegmentIntersect r b a := by
  simp only [raySegmentIntersect]
  rcases eq_or_ne (cross r.dir (psub b a)) 0 with h0 | h0
  · have h1 : cross r.dir (psub a b) = 0 := by
      simp only [cross, psub] at h0 ⊢
      linarith
    rw [if_pos h0, if_pos h1]
  · have h1 : cross r.dir (psub a b) ≠ 0 := by
      intro hc
      apply h0
      simp only [cross, psub] at hc ⊢
      linarith
    rw [if_neg h0, if_neg h1]
    have ht : cross (psub b r.origin) (psub a b) / cross r.dir (psub a b)
        = cross (psub a r.origin) (psub b a) / cross r.dir (psub b a) := by
      rw [div_eq_div_iff h1 h0]
      simp only [cross, psub]
      ring
    have hs : cross (psub b r.origin) r.dir / cross r.dir (psub a b)
        = 1 - cross (psub a r.origin) r.dir / cross r.dir (psub b a) := by
      field_simp
      simp only [cross, psub]
      ring
    rw [ht, hs]
    refine if_congr ?_ rfl rfl
    constructor
    · rintro ⟨c1, c2, c3⟩
      exact ⟨c1, by linarith, by linarith⟩
    · rintro ⟨c1, c2, c3⟩
      exact ⟨c1, by linarith, by linarith⟩

theorem raySegmentIntersect_rigid (T : Rigid) (r : Ray) (a b : Pt) :
    raySegmentIntersect (rigidRay T r) (rigidPt T a) (rigidPt T b)
      = Option.map (rigidHit T) (raySegmentIntersect r a b) := by
  simp only [raySegmentIntersect, rigidRay, psub_rigidPt, cross_rigidVec]
  rcases eq_or_ne (cross r.dir (psub b a)) 0 with h0 | h0
  · rw [if_pos h0, if_pos h0]
    rfl
  · rw [if_neg h0, if_neg h0]
    split_ifs with hc
    · refine congrArg some ?_
      simp only [rigidHit, rigidPt, rigidVec, Hit.mk.injEq, Pt.mk.injEq, true_and]
      constructor <;> ring
    · rfl

/-- Claim C6: the ray against wall-segment intersection is unchanged when
the segment's endpoints are swapped, and is equivariant under any rigid
transform applied to the ray and both endpoints alike: hit flag and range
are invariant, the intersection point moves by the same transform. -/
theorem raySegment_swap_and_rigid :
    (∀ (r : Ray) (a b : Pt),
      raySegmentIntersect r a b = raySegmentIntersect r b a) ∧
    (∀ (T : Rigid) (r : Ray) (a b : Pt),
      raySegmentIntersect (rigidRay T r) (rigidPt T a) (rigidPt T b)
        = Option.map (rigidHit T) (raySegmentIntersect r a b)) :=
  ⟨raySegmentIntersect_swap, raySegmentIntersect_rigid⟩

theorem raySegment_swap_and_rigid_witness :
    raySegmentIntersect ⟨⟨0, 0⟩, ⟨1, 0⟩⟩ ⟨1, -1⟩ ⟨1, 1⟩
      = raySegmentIntersect ⟨⟨0, 0⟩, ⟨1, 0⟩⟩ ⟨1, 1⟩ ⟨1, -1⟩ :=
  raySegment_swap_and_rigid.1 ⟨⟨0, 0⟩, ⟨1, 0⟩⟩ ⟨1, -1⟩ ⟨1, 1⟩

theorem initializeVariables_cold_start_witness :
    (initializeVariables ⟨5, 6, 7, true, 8⟩).insideAreaStartIndex = 0 ∧
    (initializeVariables ⟨5, 6, 7, true, 8⟩).insideAreaID = 0 ∧
    (initializeVariables ⟨5, 6, 7, true, 8⟩).numofFrame = 0 ∧
    (initializeVariables ⟨5, 6, 7, true, 8⟩).globalImgTimes = 0 ∧
    (initializeVariables ⟨5, 6, 7, true, 8⟩).getGuessOnce = false :=
  initializeVariables_cold_start ⟨5, 6, 7, true, 8⟩
